import Mathlib

/-!
# dotconf: a shallow embedding of `dotconf.go`

The program reads a JSON document, and for every entry of its `configuration`
list decodes the arguments and runs the action (`apt` or `user`), which shells
out to `apt-get`, `useradd` or `usermod`.

The embedding is by explicit state passing. The observable state is the
chronological list of effects the program has produced so far (processes it
started, lines it wrote to standard output). Everything the program asks of
its environment (file contents, JSON decoding, the account database, the
outcome of a started process) is a field of `Host`; those answers may depend
on the effects produced so far. A Go function returning `error` returns
`Option GoError` here (`none` is `nil`), and a run-time panic (nil pointer
dereference) is the separate outcome `Res.panic`.

The account lookup follows Go's `os/user`: a missing account is reported by the
value `user.UnknownUserError`, which is not of the pointer type that line 89 of
`dotconf.go` asserts, so the program returns that error at line 90.
-/

namespace Dotconf

/-! ## Data model -/

/-- Go `error` values, by where they are made. `Error` is the message. -/
inductive GoError where
  /-- Made by `fmt.Errorf` in this program. -/
  | errorf (msg : String)
  /-- Returned by `(*exec.Cmd).Run`. -/
  | exec (msg : String)
  /-- The value `user.UnknownUserError(name)`, by which `user.Lookup` reports a
  missing account. -/
  | unknownUser (name : String)
  /-- A pointer `*user.UnknownUserError`, the type line 89 asserts. -/
  | unknownUserPtr (name : String)
  /-- Any other error returned by `user.Lookup`. -/
  | lookup (msg : String)
  /-- Returned by `json.Unmarshal` or `(*json.Decoder).Decode`. -/
  | json (msg : String)
  /-- Returned by `os.Open`. -/
  | os (msg : String)
  deriving DecidableEq

/-- The method `Error()` of an error value. -/
def GoError.Error : GoError → String
  | .errorf m => m
  | .exec m => m
  | .unknownUser name => "user: unknown user " ++ name
  | .unknownUserPtr name => "user: unknown user " ++ name
  | .lookup m => m
  | .json m => m
  | .os m => m

/-- One observable effect of the program. -/
inductive Event where
  /-- A call `exec.Command(path, args...).Run()`. -/
  | spawn (path : String) (args : List String)
  /-- One call of `fmt.Printf` or `fmt.Println`; `line` is the text without the final newline -/
  | stdout (line : String)
  deriving DecidableEq

/-- The effects produced so far, oldest first. -/
abbrev Trace := List Event

/-- Outcome of a Go call: it returns a value, or the goroutine panics. -/
inductive Res (α : Type) where
  | ret (a : α)
  | panic
  deriving DecidableEq

/-- Go struct `CmdParse` (lines 13-17); `Args` is the raw JSON text. -/
structure CmdParse where
  Command : String
  Description : String
  Args : String
  deriving DecidableEq

/-- Go struct `ServerConf` (lines 26-28). -/
structure ServerConf where
  Commands : List CmdParse
  deriving DecidableEq

/-- Go struct `CmdApt` (lines 31-35). -/
structure CmdApt where
  State : String
  Pkgs : List String
  Purge : Bool
  deriving DecidableEq

/-- Go struct `CmdUser` (lines 76-81). -/
structure CmdUser where
  User : String
  Present : Bool
  Shell : String
  HomeDir : String
  deriving DecidableEq

/-- The fields of `os/user.User` the program reads. -/
structure User where
  Username : String
  HomeDir : String
  deriving DecidableEq

/-- The errors of `user.Lookup` in Go's `os/user`: a missing account is
reported by the value `user.UnknownUserError(name)` (the type is declared as
`type UnknownUserError string`, with a value receiver), anything else by some
other error. -/
inductive LookupError where
  | unknownUser (name : String)
  | other (msg : String)
  deriving DecidableEq

/-- The error value, of interface type `error`, that a lookup error is. -/
def LookupError.toError : LookupError → GoError
  | .unknownUser name => GoError.unknownUser name
  | .other msg => GoError.lookup msg

/-- What `user.Lookup` gives back: a user and a nil error, or a nil user and
an error. -/
inductive LookupResult where
  | found (u : User)
  | failed (e : LookupError)
  deriving DecidableEq

/-- The environment of the program. Each answer may depend on the effects
produced before the question is asked. -/
structure Host where
  /-- The call `os.Open(File)`: the file (its contents) or an error. -/
  osOpen : Trace → String → Except GoError String
  /-- The call `json.NewDecoder(file).Decode(&conf)`. -/
  jsonDecode : String → Except GoError ServerConf
  /-- The call `json.Unmarshal(raw, new(CmdApt))`. -/
  unmarshalApt : String → Except GoError CmdApt
  /-- The call `json.Unmarshal(raw, new(CmdUser))`. -/
  unmarshalUser : String → Except GoError CmdUser
  /-- The call `user.Lookup(name)`. -/
  userLookup : Trace → String → LookupResult
  /-- The error value of `cmd.Run()` for the process `path args`; `none` is exit status zero -/
  cmdRun : Trace → String → List String → Option GoError

/-! ## Operations -/

/-- The call `exec.Command(path, args...).Run()`: the process is recorded and its
outcome is asked of the host. -/
def execRun (h : Host) (t : Trace) (path : String) (args : List String) :
    Trace × Res (Option GoError) :=
  (t ++ [Event.spawn path args], Res.ret (h.cmdRun t path args))

/-- Method `func (c *CmdApt) Run() error` (lines 38-73). -/
def CmdApt.Run (h : Host) (t : Trace) (c : CmdApt) : Trace × Res (Option GoError) :=
  if c.State = "present" then
    let args := ["-y", "install"] ++ c.Pkgs
    execRun h t "/usr/bin/apt-get" args
  else if c.State = "absent" then
    let purge := if c.Purge = true then "--purge" else ""
    let args := ["-y", purge, "remove"] ++ c.Pkgs
    execRun h t "/usr/bin/apt-get" args
  else
    (t, Res.ret (some (GoError.errorf
      ("Unknown state " ++ c.State ++ " (must be present or absent)"))))

/-- The type assertion `err.(*user.UnknownUserError)` of line 89: it holds of
an error whose dynamic type is the pointer type, and of no other. -/
def isUnknownUserErrorPtr : GoError → Bool
  | GoError.unknownUserPtr _ => true
  | _ => false

/-- Lines 86-93 of `CmdUser.Run`: the lookup. `Except.error err` is the early
`return err` of line 90; otherwise the value of `current` (`none` is nil,
set at line 92 when the assertion of line 89 holds). -/
def lookupCurrent (h : Host) (t : Trace) (c : CmdUser) : Except GoError (Option User) :=
  match h.userLookup t c.User with
  | LookupResult.found u => Except.ok (some u)
  | LookupResult.failed e =>
    if isUnknownUserErrorPtr e.toError = true then Except.ok none
    else Except.error e.toError

/-- The field read `current.HomeDir` of line 121: it panics on a nil pointer. -/
def derefHomeDir : Option User → Res String
  | some u => Res.ret u.HomeDir
  | none => Res.panic

/-- Method `func (c *CmdUser) Run() error` (lines 84-132). `len(s) == 0` holds
exactly of the empty string, counted in bytes as in characters. -/
def CmdUser.Run (h : Host) (t : Trace) (c : CmdUser) : Trace × Res (Option GoError) :=
  match lookupCurrent h t c with
  | Except.error err => (t, Res.ret (some err))
  | Except.ok current =>
    if c.Present = true ∧ current ≠ none then
      let HomeDir := if c.HomeDir.length = 0 then "/home/" ++ c.User else c.HomeDir
      execRun h t "/usr/sbin/useradd" ["-m", "-d", HomeDir]
    else
      let Shell := if c.Shell.length = 0 then "/usr/bin/zsh" else c.Shell
      let HomeDir := if c.HomeDir.length = 0 then derefHomeDir current else Res.ret c.HomeDir
      match HomeDir with
      | Res.panic => (t, Res.panic)
      | Res.ret HomeDir =>
        execRun h t "/usr/sbin/usermod" ["-s", Shell, "-d", HomeDir, c.User]

/-- The values of `args` that implement `ArgsInterface` (lines 20-22) once the
`switch` of lines 161-170 and the `json.Unmarshal` of line 172 are through: a
`*CmdApt` or a `*CmdUser`. -/
inductive ArgsInterface where
  | apt (c : CmdApt)
  | user (c : CmdUser)
  deriving DecidableEq

/-- The call `args.(ArgsInterface).Run()` of line 182. -/
def ArgsInterface.Run (h : Host) (t : Trace) : ArgsInterface → Trace × Res (Option GoError)
  | ArgsInterface.apt c => c.Run h t
  | ArgsInterface.user c => c.Run h t

/-- Lines 160-174 of `ParseCommand`: `none` is the `default` case of the
switch, otherwise the result of `json.Unmarshal` into the fresh struct. -/
def decodeArgs (h : Host) (cmd : CmdParse) : Option (Except GoError ArgsInterface) :=
  if cmd.Command = "apt" then
    some ((h.unmarshalApt cmd.Args).map ArgsInterface.apt)
  else if cmd.Command = "user" then
    some ((h.unmarshalUser cmd.Args).map ArgsInterface.user)
  else
    none

/-- The line printed by `fmt.Printf("[ %s: %s ]\n", ...)` (lines 176-180). -/
def banner (cmd : CmdParse) : String :=
  "[ " ++ cmd.Command ++ ": " ++ cmd.Description ++ " ]"

/-- The line printed by `fmt.Println("  Error:", err)` (line 183). -/
def errorLine (e : GoError) : String :=
  "  Error:" ++ " " ++ e.Error

/-- Function `func ParseCommand(cmd CmdParse) error` (lines 159-188). -/
def ParseCommand (h : Host) (t : Trace) (cmd : CmdParse) : Trace × Res (Option GoError) :=
  match decodeArgs h cmd with
  | none => (t, Res.ret (some (GoError.errorf ("Unknown command: " ++ cmd.Command))))
  | some (Except.error err) => (t, Res.ret (some err))
  | some (Except.ok args) =>
    match args.Run h (t ++ [Event.stdout (banner cmd)]) with
    | (t', Res.panic) => (t', Res.panic)
    | (t', Res.ret (some err)) => (t' ++ [Event.stdout (errorLine err)], Res.ret (some err))
    | (t', Res.ret none) => (t' ++ [Event.stdout "  OK"], Res.ret none)

/-- The loop of lines 149-153 of `ParseFile`. -/
def runCommands (h : Host) : Trace → List CmdParse → Trace × Res (Option GoError)
  | t, [] => (t, Res.ret none)
  | t, cmd :: rest =>
    match ParseCommand h t cmd with
    | (t', Res.panic) => (t', Res.panic)
    | (t', Res.ret (some err)) => (t', Res.ret (some err))
    | (t', Res.ret none) => runCommands h t' rest

/-- Function `func ParseFile(File string) (*ServerConf, error)` (lines 134-156). The
first component of the returned pair is the pointer (`none` is nil). -/
def ParseFile (h : Host) (t : Trace) (File : String) :
    Trace × Res (Option ServerConf × Option GoError) :=
  match h.osOpen t File with
  | Except.error err => (t, Res.ret (none, some err))
  | Except.ok file =>
    match h.jsonDecode file with
    | Except.error err => (t, Res.ret (none, some err))
    | Except.ok conf =>
      match runCommands h t conf.Commands with
      | (t', Res.panic) => (t', Res.panic)
      | (t', Res.ret (some err)) => (t', Res.ret (none, some err))
      | (t', Res.ret none) => (t', Res.ret (some conf, none))

/-- Function `func main()` (lines 191-197). -/
def main (h : Host) (t : Trace) : Trace × Res Unit :=
  match ParseFile h t "desktop.json" with
  | (t', Res.panic) => (t', Res.panic)
  | (t', Res.ret (_, some err)) => (t' ++ [Event.stdout ("Error:" ++ " " ++ err.Error)], Res.ret ())
  | (t', Res.ret (_, none)) => (t', Res.ret ())

/-- The effects one call of `CmdUser.Run` adds to the trace. -/
def CmdUser.effects (h : Host) (t : Trace) (c : CmdUser) : List Event :=
  (c.Run h t).1.drop t.length

/-! ## Reference semantics of applying a list of entries

Two definitions that do not stop at a failure, against which the loop of
`ParseFile` is compared. -/

/-- The trace after `ParseCommand` has been applied to every entry of the
list once, in list order, each from the trace its predecessor left. -/
def applyEach (h : Host) : Trace → List CmdParse → Trace
  | t, [] => t
  | t, cmd :: rest => applyEach h (ParseCommand h t cmd).1 rest

/-- Whether `ParseCommand` returns success for every entry of the list,
applied in list order, each from the trace its predecessor left. -/
def succeedEach (h : Host) : Trace → List CmdParse → Bool
  | _, [] => true
  | t, cmd :: rest =>
    decide ((ParseCommand h t cmd).2 = Res.ret none)
      && succeedEach h (ParseCommand h t cmd).1 rest

/-! ## Concrete hosts and inputs -/

/-- Raw `args` of a user entry for the account `ghost`. -/
def ghostArgs : String :=
  "\x7b\"user\":\"ghost\",\"present\":false\x7d"

/-- Raw `args` of an apt entry installing `vim`. -/
def vimArgs : String :=
  "\x7b\"state\":\"present\",\"pkgs\":[\"vim\"],\"purge\":false\x7d"

/-- A user entry for the account `ghost`, which is to be absent. -/
def ghostEntry : CmdParse :=
  ⟨"user", "ghost account", ghostArgs⟩

/-- An apt entry installing `vim`. -/
def vimEntry : CmdParse :=
  ⟨"apt", "install vim", vimArgs⟩

/-- A configuration of two entries: the user entry, then the apt entry. -/
def desktopConf : ServerConf :=
  ⟨[ghostEntry, vimEntry]⟩

/-- The text of a `desktop.json` holding `desktopConf`. -/
def desktopJson : String :=
  "\x7b\"configuration\":[\x7b\"command\":\"user\",\"description\":\"ghost account\",\"args\":"
    ++ ghostArgs
    ++ "\x7d,\x7b\"command\":\"apt\",\"description\":\"install vim\",\"args\":"
    ++ vimArgs ++ "\x7d]\x7d"

/-- The file system of the sample hosts: `desktop.json` only. -/
def sampleOpen (File : String) : Except GoError String :=
  if File = "desktop.json" then Except.ok desktopJson
  else Except.error (GoError.os ("open " ++ File ++ ": no such file or directory"))

/-- The JSON decoding of `desktopJson` into a `ServerConf`. -/
def sampleDecode (file : String) : Except GoError ServerConf :=
  if file = desktopJson then Except.ok desktopConf
  else Except.error (GoError.json "unexpected end of JSON input")

/-- The JSON decoding of the two payloads above into a `CmdApt`. -/
def sampleUnmarshalApt (raw : String) : Except GoError CmdApt :=
  if raw = vimArgs then Except.ok ⟨"present", ["vim"], false⟩
  else Except.error (GoError.json "unexpected end of JSON input")

/-- The JSON decoding of the two payloads above into a `CmdUser`. -/
def sampleUnmarshalUser (raw : String) : Except GoError CmdUser :=
  if raw = ghostArgs then Except.ok ⟨"ghost", false, "", ""⟩
  else Except.error (GoError.json "unexpected end of JSON input")

/-- A host whose `desktop.json` holds `desktopConf`, on which no account
exists (every lookup fails with `user.UnknownUserError`) and every process
exits with status zero. -/
def emptyHost : Host where
  osOpen := fun _ File => sampleOpen File
  jsonDecode := sampleDecode
  unmarshalApt := sampleUnmarshalApt
  unmarshalUser := sampleUnmarshalUser
  userLookup := fun _ name => LookupResult.failed (LookupError.unknownUser name)
  cmdRun := fun _ _ _ => none

/-- A host like `emptyHost`, but on which every looked-up account exists,
with home directory `/home/<name>`. -/
def accountHost : Host where
  osOpen := fun _ File => sampleOpen File
  jsonDecode := sampleDecode
  unmarshalApt := sampleUnmarshalApt
  unmarshalUser := sampleUnmarshalUser
  userLookup := fun _ name => LookupResult.found ⟨name, "/home/" ++ name⟩
  cmdRun := fun _ _ _ => none

/-! ## Basic facts -/

/-- A string has length zero exactly when it is the empty string. -/
theorem length_eq_zero_iff (s : String) : s.length = 0 ↔ s = "" := by
  constructor
  · intro hs
    apply String.ext
    exact List.length_eq_zero.mp hs
  · rintro rfl
    rfl

/-! ## The unknown command (C2) -/

/-- C2. An entry whose command name is neither `apt` nor `user` makes
`ParseCommand` return the error `Unknown command: <name>`, whatever its args
payload is; the trace is unchanged, so no process is spawned and nothing is
printed. -/
theorem ParseCommand_unknown_command (h : Host) (t : Trace) (cmd : CmdParse)
    (hapt : cmd.Command ≠ "apt") (huser : cmd.Command ≠ "user") :
    ParseCommand h t cmd
        = (t, Res.ret (some (GoError.errorf ("Unknown command: " ++ cmd.Command))))
      ∧ (GoError.errorf ("Unknown command: " ++ cmd.Command)).Error
        = "Unknown command: " ++ cmd.Command := by
  refine ⟨?_, rfl⟩
  simp [ParseCommand, decodeArgs, hapt, huser]

/-- The entry `ftp` on `emptyHost`. -/
theorem ParseCommand_unknown_command_witness :
    ParseCommand emptyHost [] ⟨"ftp", "file transfer", vimArgs⟩
        = ([], Res.ret (some (GoError.errorf ("Unknown command: " ++ "ftp"))))
      ∧ (GoError.errorf ("Unknown command: " ++ "ftp")).Error = "Unknown command: " ++ "ftp" :=
  ParseCommand_unknown_command emptyHost [] ⟨"ftp", "file transfer", vimArgs⟩
    (by decide) (by decide)

/-! ## Package actions (C3, C4, C5) -/

/-- C3. A package action whose state is neither `present` nor `absent` makes
`CmdApt.Run` return the error `Unknown state <state> (must be present or
absent)`, for every package list and purge flag; the trace is unchanged, so no
process is spawned. -/
theorem CmdApt_Run_unsupported_state (h : Host) (t : Trace) (c : CmdApt)
    (hpresent : c.State ≠ "present") (habsent : c.State ≠ "absent") :
    c.Run h t
        = (t, Res.ret (some (GoError.errorf
            ("Unknown state " ++ c.State ++ " (must be present or absent)"))))
      ∧ (GoError.errorf ("Unknown state " ++ c.State ++ " (must be present or absent)")).Error
        = "Unknown state " ++ c.State ++ " (must be present or absent)" := by
  refine ⟨?_, rfl⟩
  simp [CmdApt.Run, hpresent, habsent]

/-- The state `enabled`. -/
theorem CmdApt_Run_unsupported_state_witness :
    (⟨"enabled", ["vim"], true⟩ : CmdApt).Run accountHost []
        = ([], Res.ret (some (GoError.errorf
            ("Unknown state " ++ "enabled" ++ " (must be present or absent)"))))
      ∧ (GoError.errorf ("Unknown state " ++ "enabled" ++ " (must be present or absent)")).Error
        = "Unknown state " ++ "enabled" ++ " (must be present or absent)" :=
  CmdApt_Run_unsupported_state accountHost [] ⟨"enabled", ["vim"], true⟩
    (by decide) (by decide)

/-- C5. A package action with state `present` makes `CmdApt.Run` spawn exactly
one process, `/usr/bin/apt-get -y install <pkgs>`, with the package list
unchanged and in order (the empty list included); the call returns what that
process returns, so it succeeds exactly when the process exits with status
zero. -/
theorem CmdApt_Run_present (h : Host) (t : Trace) (c : CmdApt)
    (hstate : c.State = "present") :
    c.Run h t
        = (t ++ [Event.spawn "/usr/bin/apt-get" ("-y" :: "install" :: c.Pkgs)],
           Res.ret (h.cmdRun t "/usr/bin/apt-get" ("-y" :: "install" :: c.Pkgs)))
      ∧ ((c.Run h t).2 = Res.ret none
          ↔ h.cmdRun t "/usr/bin/apt-get" ("-y" :: "install" :: c.Pkgs) = none) := by
  have hrun : c.Run h t
      = (t ++ [Event.spawn "/usr/bin/apt-get" ("-y" :: "install" :: c.Pkgs)],
         Res.ret (h.cmdRun t "/usr/bin/apt-get" ("-y" :: "install" :: c.Pkgs))) := by
    simp [CmdApt.Run, execRun, hstate]
  refine ⟨hrun, ?_⟩
  rw [hrun]
  simp

/-- State `present` with the empty package list. -/
theorem CmdApt_Run_present_witness :
    (⟨"present", [], true⟩ : CmdApt).Run accountHost []
        = ([] ++ [Event.spawn "/usr/bin/apt-get" ("-y" :: "install" :: [])],
           Res.ret (accountHost.cmdRun [] "/usr/bin/apt-get" ("-y" :: "install" :: [])))
      ∧ (((⟨"present", [], true⟩ : CmdApt).Run accountHost []).2 = Res.ret none
          ↔ accountHost.cmdRun [] "/usr/bin/apt-get" ("-y" :: "install" :: []) = none) :=
  CmdApt_Run_present accountHost [] ⟨"present", [], true⟩ rfl

/-- C4 (the code departs from the claim). With state `absent` and purge false,
`CmdApt.Run` spawns `/usr/bin/apt-get` with the arguments `-y`, the empty
string, `remove` and the package names: an empty argument stands where the
purge flag would be, so the argument list is not `-y remove <pkgs>`. -/
theorem CmdApt_Run_absent_without_purge (h : Host) (t : Trace) (pkgs : List String) :
    (⟨"absent", pkgs, false⟩ : CmdApt).Run h t
        = (t ++ [Event.spawn "/usr/bin/apt-get" ("-y" :: "" :: "remove" :: pkgs)],
           Res.ret (h.cmdRun t "/usr/bin/apt-get" ("-y" :: "" :: "remove" :: pkgs)))
      ∧ ("-y" :: "" :: "remove" :: pkgs) ≠ ("-y" :: "remove" :: pkgs) := by
  constructor
  · simp [CmdApt.Run, execRun]
  · intro heq
    have hlen := congrArg List.length heq
    simp at hlen

/-- With state `absent` and purge true the arguments are `-y --purge remove`
and the package names, as the removal form asks. -/
theorem CmdApt_Run_absent_with_purge (h : Host) (t : Trace) (pkgs : List String) :
    (⟨"absent", pkgs, true⟩ : CmdApt).Run h t
      = (t ++ [Event.spawn "/usr/bin/apt-get" ("-y" :: "--purge" :: "remove" :: pkgs)],
         Res.ret (h.cmdRun t "/usr/bin/apt-get" ("-y" :: "--purge" :: "remove" :: pkgs))) := by
  simp [CmdApt.Run, execRun]

/-! ## User actions (C6, C7, C8, C10) -/

/-- The lookup of lines 86-93 when the account is found. -/
theorem lookupCurrent_found (h : Host) (t : Trace) (c : CmdUser) (u : User)
    (hfound : h.userLookup t c.User = LookupResult.found u) :
    lookupCurrent h t c = Except.ok (some u) := by
  simp [lookupCurrent, hfound]

/-- The lookup of lines 86-93 when `user.Lookup` fails: no error of
`user.Lookup` passes the assertion of line 89, so line 90 returns it. -/
theorem lookupCurrent_failed (h : Host) (t : Trace) (c : CmdUser) (e : LookupError)
    (hfailed : h.userLookup t c.User = LookupResult.failed e) :
    lookupCurrent h t c = Except.error e.toError := by
  cases e <;> simp [lookupCurrent, hfailed, LookupError.toError, isUnknownUserErrorPtr]

/-- When `user.Lookup` fails, `CmdUser.Run` returns that error and spawns
nothing. -/
theorem CmdUser_Run_lookup_failed (h : Host) (t : Trace) (c : CmdUser) (e : LookupError)
    (hfailed : h.userLookup t c.User = LookupResult.failed e) :
    c.Run h t = (t, Res.ret (some e.toError)) := by
  simp [CmdUser.Run, lookupCurrent_failed h t c e hfailed]

/-- When the branch of line 96 is taken (the account is to be present and the
lookup found it), `CmdUser.Run` spawns `/usr/sbin/useradd -m -d <home>` and
nothing else, and returns what that process returns. -/
theorem CmdUser_Run_create (h : Host) (t : Trace) (c : CmdUser) (u : User)
    (hpresent : c.Present = true) (hfound : h.userLookup t c.User = LookupResult.found u) :
    c.Run h t
      = (t ++ [Event.spawn "/usr/sbin/useradd"
            ["-m", "-d", if c.HomeDir = "" then "/home/" ++ c.User else c.HomeDir]],
         Res.ret (h.cmdRun t "/usr/sbin/useradd"
            ["-m", "-d", if c.HomeDir = "" then "/home/" ++ c.User else c.HomeDir])) := by
  simp [CmdUser.Run, lookupCurrent, hfound, hpresent, execRun, length_eq_zero_iff]

/-- When the account is not to be present and the lookup found it,
`CmdUser.Run` spawns `/usr/sbin/usermod -s <shell> -d <home> <user>` and nothing
else; the home directory is the given one, or the one recorded for the account
when none is given. -/
theorem CmdUser_Run_modify (h : Host) (t : Trace) (c : CmdUser) (u : User)
    (hpresent : c.Present = false) (hfound : h.userLookup t c.User = LookupResult.found u) :
    c.Run h t
      = (t ++ [Event.spawn "/usr/sbin/usermod"
            ["-s", if c.Shell = "" then "/usr/bin/zsh" else c.Shell,
             "-d", if c.HomeDir = "" then u.HomeDir else c.HomeDir, c.User]],
         Res.ret (h.cmdRun t "/usr/sbin/usermod"
            ["-s", if c.Shell = "" then "/usr/bin/zsh" else c.Shell,
             "-d", if c.HomeDir = "" then u.HomeDir else c.HomeDir, c.User])) := by
  by_cases hhome : c.HomeDir = "" <;>
    simp [CmdUser.Run, lookupCurrent, hfound, hpresent, execRun, length_eq_zero_iff, hhome,
      derefHomeDir]

/-- The call `CmdUser.Run` only adds to the trace. -/
theorem CmdUser_Run_trace (h : Host) (t : Trace) (c : CmdUser) :
    (c.Run h t).1 = t ++ c.effects h t := by
  cases hl : h.userLookup t c.User with
  | found u =>
    cases hp : c.Present
    · simp [CmdUser.effects, CmdUser_Run_modify h t c u hp hl]
    · simp [CmdUser.effects, CmdUser_Run_create h t c u hp hl]
  | failed e => simp [CmdUser.effects, CmdUser_Run_lookup_failed h t c e hl]

/-- C6 (the code departs from the claim). The account is to be present and the
lookup reports that it does not exist. `user.Lookup` reports this by the value
`user.UnknownUserError`, which does not pass the pointer assertion of line 89,
so `CmdUser.Run` returns the lookup error at line 90: no process is spawned,
neither `useradd` nor `usermod`, and the call fails with `user: unknown user
ghost`. The last part says so for every host and action. -/
theorem CmdUser_Run_unknown_user_not_created :
    (⟨"ghost", true, "", ""⟩ : CmdUser).Run emptyHost []
        = ([], Res.ret (some (GoError.unknownUser "ghost")))
      ∧ (GoError.unknownUser "ghost").Error = "user: unknown user ghost"
      ∧ ∀ (h : Host) (t : Trace) (c : CmdUser),
          h.userLookup t c.User = LookupResult.failed (LookupError.unknownUser c.User) →
            c.Run h t = (t, Res.ret (some (GoError.unknownUser c.User)))
              ∧ c.effects h t = [] := by
  refine ⟨by decide, by decide, ?_⟩
  intro h t c hl
  have hrun := CmdUser_Run_lookup_failed h t c _ hl
  refine ⟨hrun, ?_⟩
  simp [CmdUser.effects, hrun]

/-- C7 (the code departs from the claim). The account is to be present, the
lookup finds it and `useradd` exits with status zero: `CmdUser.Run` returns
right after the creation process, and `/usr/sbin/usermod` is not spawned. -/
theorem CmdUser_Run_create_skips_usermod :
    (⟨"bob", true, "/bin/bash", "/home/bob"⟩ : CmdUser).Run accountHost []
        = ([Event.spawn "/usr/sbin/useradd" ["-m", "-d", "/home/bob"]], Res.ret none)
      ∧ Event.spawn "/usr/sbin/usermod" ["-s", "/bin/bash", "-d", "/home/bob", "bob"]
          ∉ (⟨"bob", true, "/bin/bash", "/home/bob"⟩ : CmdUser).effects accountHost [] := by
  refine ⟨by decide, by decide⟩

/-- C10. The call `CmdUser.Run` is total: for every user action and every
outcome of the lookup (found, not found, other error) it returns success or an
error and does not panic. When execution goes on past line 93 the pointer
`current` is not nil, and whenever the modification process is spawned with no
home directory given, the lookup had found the account and the home directory
passed is the one recorded for it. -/
theorem CmdUser_Run_total (h : Host) (t : Trace) (c : CmdUser) :
    (∃ r, (c.Run h t).2 = Res.ret r)
      ∧ lookupCurrent h t c ≠ Except.ok none
      ∧ (∀ args, Event.spawn "/usr/sbin/usermod" args ∈ c.effects h t → c.HomeDir = "" →
          ∃ u, h.userLookup t c.User = LookupResult.found u
            ∧ args = ["-s", if c.Shell = "" then "/usr/bin/zsh" else c.Shell,
                      "-d", u.HomeDir, c.User]) := by
  cases hl : h.userLookup t c.User with
  | found u =>
    refine ⟨?_, by simp [lookupCurrent_found h t c u hl], ?_⟩
    · cases hp : c.Present
      · exact ⟨_, by rw [CmdUser_Run_modify h t c u hp hl]⟩
      · exact ⟨_, by rw [CmdUser_Run_create h t c u hp hl]⟩
    · intro args hmem hhome
      refine ⟨u, rfl, ?_⟩
      cases hp : c.Present
      · simpa [CmdUser.effects, CmdUser_Run_modify h t c u hp hl, hhome] using hmem
      · simp [CmdUser.effects, CmdUser_Run_create h t c u hp hl] at hmem
  | failed e =>
    refine ⟨⟨_, by rw [CmdUser_Run_lookup_failed h t c e hl]⟩,
      by simp [lookupCurrent_failed h t c e hl], ?_⟩
    intro args hmem
    simp [CmdUser.effects, CmdUser_Run_lookup_failed h t c e hl] at hmem

/-- C8. The call `CmdUser.Run` spawns `/usr/sbin/useradd` exactly when the
account is to be present and the lookup found an account of that name (never
when the lookup found none, never when the account is not to be present). That
process is the only one of the call and its arguments are exactly the three
`-m`, `-d`, `H`, where `H` is the given home directory, or `/home/<user>` when
none is given: no argument is passed for the user name. -/
theorem CmdUser_Run_useradd (h : Host) (t : Trace) (c : CmdUser) :
    ((∃ args, Event.spawn "/usr/sbin/useradd" args ∈ c.effects h t)
        ↔ (c.Present = true ∧ ∃ u, h.userLookup t c.User = LookupResult.found u))
      ∧ (∀ args, Event.spawn "/usr/sbin/useradd" args ∈ c.effects h t →
          args = ["-m", "-d", if c.HomeDir = "" then "/home/" ++ c.User else c.HomeDir]
            ∧ c.effects h t = [Event.spawn "/usr/sbin/useradd" args]) := by
  cases hl : h.userLookup t c.User with
  | found u =>
    cases hp : c.Present
    · simp [CmdUser.effects, CmdUser_Run_modify h t c u hp hl]
    · refine ⟨by simp [CmdUser.effects, CmdUser_Run_create h t c u hp hl], ?_⟩
      intro args hmem
      have hargs : args
          = ["-m", "-d", if c.HomeDir = "" then "/home/" ++ c.User else c.HomeDir] := by
        simpa [CmdUser.effects, CmdUser_Run_create h t c u hp hl] using hmem
      refine ⟨hargs, ?_⟩
      simp [CmdUser.effects, CmdUser_Run_create h t c u hp hl, hargs]
  | failed e =>
    simp [CmdUser.effects, CmdUser_Run_lookup_failed h t c e hl]

/-! ## Applying one entry (C9) -/

/-- A package action returns, and only spawns processes. -/
theorem CmdApt_Run_spawns_only (h : Host) (t : Trace) (c : CmdApt) :
    ∃ es r, c.Run h t = (t ++ es, Res.ret r)
      ∧ ∀ e ∈ es, ∃ path args, e = Event.spawn path args := by
  by_cases hpresent : c.State = "present"
  · exact ⟨[Event.spawn "/usr/bin/apt-get" (["-y", "install"] ++ c.Pkgs)],
      h.cmdRun t "/usr/bin/apt-get" (["-y", "install"] ++ c.Pkgs),
      by simp [CmdApt.Run, execRun, hpresent], by simp⟩
  · by_cases habsent : c.State = "absent"
    · exact ⟨[Event.spawn "/usr/bin/apt-get"
          (["-y", if c.Purge = true then "--purge" else "", "remove"] ++ c.Pkgs)],
        h.cmdRun t "/usr/bin/apt-get"
          (["-y", if c.Purge = true then "--purge" else "", "remove"] ++ c.Pkgs),
        by simp [CmdApt.Run, execRun, hpresent, habsent], by simp⟩
    · exact ⟨[], some (GoError.errorf
          ("Unknown state " ++ c.State ++ " (must be present or absent)")),
        by simp [CmdApt.Run, hpresent, habsent], by simp⟩

/-- A user action returns, and only spawns processes. -/
theorem CmdUser_Run_spawns_only (h : Host) (t : Trace) (c : CmdUser) :
    ∃ es r, c.Run h t = (t ++ es, Res.ret r)
      ∧ ∀ e ∈ es, ∃ path args, e = Event.spawn path args := by
  cases hl : h.userLookup t c.User with
  | found u =>
    cases hp : c.Present
    · exact ⟨[_], _, CmdUser_Run_modify h t c u hp hl, by simp⟩
    · exact ⟨[_], _, CmdUser_Run_create h t c u hp hl, by simp⟩
  | failed e =>
    exact ⟨[], some e.toError, by simp [CmdUser_Run_lookup_failed h t c e hl], by simp⟩

/-- An action returns, and only spawns processes: it prints nothing. -/
theorem ArgsInterface_Run_spawns_only (h : Host) (t : Trace) (a : ArgsInterface) :
    ∃ es r, a.Run h t = (t ++ es, Res.ret r)
      ∧ ∀ e ∈ es, ∃ path args, e = Event.spawn path args := by
  cases a with
  | apt c => exact CmdApt_Run_spawns_only h t c
  | user c => exact CmdUser_Run_spawns_only h t c

/-- The switch and the decoding of lines 160-174 give an action exactly when
the command is `apt` or `user` and `json.Unmarshal` of the args succeeds. -/
theorem decodeArgs_eq_ok_iff (h : Host) (cmd : CmdParse) (a : ArgsInterface) :
    decodeArgs h cmd = some (Except.ok a)
      ↔ ((cmd.Command = "apt" ∧ ∃ c, h.unmarshalApt cmd.Args = Except.ok c
            ∧ a = ArgsInterface.apt c)
          ∨ (cmd.Command = "user" ∧ ∃ c, h.unmarshalUser cmd.Args = Except.ok c
            ∧ a = ArgsInterface.user c)) := by
  by_cases hapt : cmd.Command = "apt"
  · have huser : cmd.Command ≠ "user" := by rw [hapt]; decide
    cases hd : h.unmarshalApt cmd.Args with
    | error err => simp [decodeArgs, hapt, hd, Except.map]
    | ok c =>
      simp only [decodeArgs, hapt, hd, Except.map, if_true]
      constructor
      · intro heq
        injection heq with heq
        injection heq with heq
        exact Or.inl ⟨trivial, c, rfl, heq.symm⟩
      · rintro (⟨-, c1, hc1, rfl⟩ | ⟨hu, -⟩)
        · injection hc1 with hc1
          rw [hc1]
        · exact absurd hu (by decide)
  · by_cases huser : cmd.Command = "user"
    · cases hd : h.unmarshalUser cmd.Args with
      | error err => simp [decodeArgs, hapt, huser, hd, Except.map]
      | ok c =>
        simp only [decodeArgs, huser, hd, Except.map]
        constructor
        · intro heq
          simp at heq
          exact Or.inr ⟨trivial, c, rfl, heq.symm⟩
        · rintro (⟨ha, -⟩ | ⟨-, c1, hc1, rfl⟩)
          · exact absurd ha (by decide)
          · injection hc1 with hc1
            rw [hc1]
            simp
    · simp [decodeArgs, hapt, huser]

/-- An entry whose args do not decode: `ParseCommand` returns the decoding
error and the trace is unchanged. -/
theorem ParseCommand_of_decode_error (h : Host) (t : Trace) (cmd : CmdParse) (err : GoError)
    (hdecode : decodeArgs h cmd = some (Except.error err)) :
    ParseCommand h t cmd = (t, Res.ret (some err)) := by
  simp [ParseCommand, hdecode]

/-- C9. For an entry whose command is `apt` or `user` and whose args decode
(the switch and `json.Unmarshal` of lines 160-174 give the action `a`),
`ParseCommand` prints exactly two lines. The first is the banner
`[ <command>: <description> ]`, printed before the action runs; the action then
spawns its processes and prints nothing; the second line is `  OK` when the
action returned success, and `ParseCommand` returns success, or
`  Error: <message>` with the message of the action's error, and
`ParseCommand` returns that same error. -/
theorem ParseCommand_prints_two_lines (h : Host) (t : Trace) (cmd : CmdParse)
    (a : ArgsInterface) (hdecode : decodeArgs h cmd = some (Except.ok a)) :
    ∃ spawned r,
      (∀ e ∈ spawned, ∃ path args, e = Event.spawn path args)
        ∧ a.Run h (t ++ [Event.stdout ("[ " ++ cmd.Command ++ ": " ++ cmd.Description ++ " ]")])
            = (t ++ Event.stdout ("[ " ++ cmd.Command ++ ": " ++ cmd.Description ++ " ]")
                  :: spawned, Res.ret r)
        ∧ ParseCommand h t cmd
            = (t ++ Event.stdout ("[ " ++ cmd.Command ++ ": " ++ cmd.Description ++ " ]")
                  :: spawned
                  ++ [Event.stdout (match r with
                        | none => "  OK"
                        | some err => "  Error: " ++ err.Error)],
               Res.ret r) := by
  obtain ⟨es, r, hrun, hspawn⟩ :=
    ArgsInterface_Run_spawns_only h (t ++ [Event.stdout (banner cmd)]) a
  simp only [banner] at hrun
  refine ⟨es, r, hspawn, by simpa using hrun, ?_⟩
  cases r with
  | none => simp [ParseCommand, hdecode, hrun, banner]
  | some err => simp [ParseCommand, hdecode, hrun, errorLine, banner]

/-- The apt entry installing `vim`, on a host where `apt-get` exits with
status zero: the banner, the process, then `  OK`. -/
theorem ParseCommand_prints_two_lines_witness :
    ∃ spawned r,
      (∀ e ∈ spawned, ∃ path args, e = Event.spawn path args)
        ∧ (ArgsInterface.apt ⟨"present", ["vim"], false⟩).Run accountHost
            ([] ++ [Event.stdout ("[ " ++ vimEntry.Command ++ ": " ++ vimEntry.Description
              ++ " ]")])
            = ([] ++ Event.stdout ("[ " ++ vimEntry.Command ++ ": " ++ vimEntry.Description
                  ++ " ]") :: spawned, Res.ret r)
        ∧ ParseCommand accountHost [] vimEntry
            = ([] ++ Event.stdout ("[ " ++ vimEntry.Command ++ ": " ++ vimEntry.Description
                  ++ " ]") :: spawned
                  ++ [Event.stdout (match r with
                        | none => "  OK"
                        | some err => "  Error: " ++ err.Error)],
               Res.ret r) :=
  ParseCommand_prints_two_lines accountHost [] vimEntry
    (ArgsInterface.apt ⟨"present", ["vim"], false⟩) rfl

/-- The two outcomes on concrete entries: the apt entry succeeds and prints
`  OK`; the user entry on a host without the account fails and prints the
error line. -/
theorem ParseCommand_samples :
    ParseCommand accountHost [] vimEntry
        = ([Event.stdout "[ apt: install vim ]",
            Event.spawn "/usr/bin/apt-get" ["-y", "install", "vim"],
            Event.stdout "  OK"], Res.ret none)
      ∧ ParseCommand emptyHost [] ghostEntry
        = ([Event.stdout "[ user: ghost account ]",
            Event.stdout "  Error: user: unknown user ghost"],
           Res.ret (some (GoError.unknownUser "ghost"))) := by
  refine ⟨by decide, by decide⟩

/-! ## Applying the list of entries (C1) -/

/-- The call `ParseCommand` returns: it never panics. -/
theorem ParseCommand_returns (h : Host) (t : Trace) (cmd : CmdParse) :
    ∃ r, (ParseCommand h t cmd).2 = Res.ret r := by
  cases hd : decodeArgs h cmd with
  | none =>
    exact ⟨some (GoError.errorf ("Unknown command: " ++ cmd.Command)),
      by simp [ParseCommand, hd]⟩
  | some d =>
    cases d with
    | error err => exact ⟨some err, by simp [ParseCommand, hd]⟩
    | ok a =>
      obtain ⟨es, r, -, -, hcmd⟩ := ParseCommand_prints_two_lines h t cmd a hd
      exact ⟨r, by rw [hcmd]⟩

/-- Applying a list `pre ++ post` is applying `pre`, then `post`. -/
theorem applyEach_append (h : Host) (pre post : List CmdParse) (t : Trace) :
    applyEach h t (pre ++ post) = applyEach h (applyEach h t pre) post := by
  induction pre generalizing t with
  | nil => rfl
  | cons cmd rest ih => simp [applyEach, ih]

/-- The loop over a list `pre ++ post` runs `pre`, and runs `post` from the
trace `pre` left only when every entry of `pre` succeeded. -/
theorem runCommands_append (h : Host) (pre post : List CmdParse) (t : Trace) :
    runCommands h t (pre ++ post)
      = match runCommands h t pre with
        | (t1, Res.ret none) => runCommands h t1 post
        | other => other := by
  induction pre generalizing t with
  | nil => simp [runCommands]
  | cons cmd rest ih =>
    simp only [List.cons_append, runCommands]
    rcases hcmd : ParseCommand h t cmd with ⟨t1, r⟩
    rcases r with (_ | err) | _
    · simpa using ih t1
    · simp
    · simp

/-- When every entry succeeds the loop applies every entry once, in order,
and returns success. -/
theorem runCommands_of_succeedEach (h : Host) (cmds : List CmdParse) (t : Trace)
    (hall : succeedEach h t cmds = true) :
    runCommands h t cmds = (applyEach h t cmds, Res.ret none) := by
  induction cmds generalizing t with
  | nil => rfl
  | cons cmd rest ih =>
    simp only [succeedEach, Bool.and_eq_true, decide_eq_true_eq] at hall
    obtain ⟨hcmd, hrest⟩ := hall
    have hpair : ParseCommand h t cmd = ((ParseCommand h t cmd).1, Res.ret none) := by
      rw [← hcmd]
    simp only [runCommands, applyEach]
    rw [hpair]
    exact ih _ hrest

/-- Fail-fast: when the entries before `cmd` all succeed and `ParseCommand`
returns an error for `cmd`, the loop stops there with that error; the trace is
that of the entries up to and including `cmd`, whatever follows `cmd`. -/
theorem runCommands_stops_at_error (h : Host) (pre post : List CmdParse) (cmd : CmdParse)
    (t : Trace) (err : GoError)
    (hpre : succeedEach h t pre = true)
    (hcmd : (ParseCommand h (applyEach h t pre) cmd).2 = Res.ret (some err)) :
    runCommands h t (pre ++ cmd :: post)
      = (applyEach h t (pre ++ [cmd]), Res.ret (some err)) := by
  have hpair : ParseCommand h (applyEach h t pre) cmd
      = ((ParseCommand h (applyEach h t pre) cmd).1, Res.ret (some err)) := by
    rw [← hcmd]
  rw [runCommands_append, runCommands_of_succeedEach h pre t hpre, applyEach_append]
  simp only [runCommands, applyEach]
  rw [hpair]

/-- Every list either succeeds throughout or has a first entry for which
`ParseCommand` returns an error. -/
theorem succeedEach_or_first_error (h : Host) (cmds : List CmdParse) (t : Trace) :
    succeedEach h t cmds = true
      ∨ ∃ pre cmd post err, cmds = pre ++ cmd :: post ∧ succeedEach h t pre = true
          ∧ (ParseCommand h (applyEach h t pre) cmd).2 = Res.ret (some err) := by
  induction cmds generalizing t with
  | nil => exact Or.inl rfl
  | cons cmd rest ih =>
    obtain ⟨r, hr⟩ := ParseCommand_returns h t cmd
    cases r with
    | some err => exact Or.inr ⟨[], cmd, rest, err, rfl, rfl, hr⟩
    | none =>
      rcases ih (ParseCommand h t cmd).1 with hall | ⟨pre, c, post, err, hsplit, hpre, hc⟩
      · exact Or.inl (by simp [succeedEach, hr, hall])
      · exact Or.inr ⟨cmd :: pre, c, post, err, by simp [hsplit],
          by simp [succeedEach, hr, hpre], by simpa [applyEach] using hc⟩

/-- C1. Once the file is opened and decoded into a list of entries, for every
host (every behaviour of the spawned processes): `ParseFile` feeds the entries
to `ParseCommand` in list order and stops at the first entry `cmd` for which
`ParseCommand` returns an error. The trace is then exactly that of the entries
up to and including `cmd`, the entries after `cmd` play no part, and
`ParseFile` returns that error with a nil configuration. When every entry
succeeds, every entry is applied once in order and the configuration is
returned with a nil error. One of the two cases always holds. -/
theorem ParseFile_fail_fast (h : Host) (t : Trace) (File file : String) (conf : ServerConf)
    (hopen : h.osOpen t File = Except.ok file)
    (hdecode : h.jsonDecode file = Except.ok conf) :
    (∀ pre cmd post err, conf.Commands = pre ++ cmd :: post →
        succeedEach h t pre = true →
        (ParseCommand h (applyEach h t pre) cmd).2 = Res.ret (some err) →
        ParseFile h t File = (applyEach h t (pre ++ [cmd]), Res.ret (none, some err)))
      ∧ (succeedEach h t conf.Commands = true →
          ParseFile h t File = (applyEach h t conf.Commands, Res.ret (some conf, none)))
      ∧ (succeedEach h t conf.Commands = true
          ∨ ∃ pre cmd post err, conf.Commands = pre ++ cmd :: post
              ∧ succeedEach h t pre = true
              ∧ (ParseCommand h (applyEach h t pre) cmd).2 = Res.ret (some err)) := by
  refine ⟨?_, ?_, succeedEach_or_first_error h conf.Commands t⟩
  · intro pre cmd post err hsplit hpre hcmd
    have hloop := runCommands_stops_at_error h pre post cmd t err hpre hcmd
    simp [ParseFile, hopen, hdecode, hsplit, hloop]
  · intro hall
    simp [ParseFile, hopen, hdecode, runCommands_of_succeedEach h conf.Commands t hall]

/-- The sample `desktop.json` on a host without the account `ghost`: the user
entry fails with `user: unknown user ghost`, `ParseFile` returns that error
with a nil configuration after the banner and the error line of the first
entry, and the apt entry is not applied. -/
theorem ParseFile_fail_fast_witness :
    ParseFile emptyHost [] "desktop.json"
      = ([Event.stdout "[ user: ghost account ]",
          Event.stdout "  Error: user: unknown user ghost"],
         Res.ret (none, some (GoError.unknownUser "ghost"))) :=
  (ParseFile_fail_fast emptyHost [] "desktop.json" desktopJson desktopConf rfl
      (by simp [emptyHost, sampleDecode])).1
    [] ghostEntry [vimEntry] (GoError.unknownUser "ghost") rfl rfl (by decide)

/-- The sample `desktop.json` on a host where the account exists and every
process exits with status zero: both entries are applied, in order, and the
configuration is returned. -/
theorem ParseFile_sample_success :
    ParseFile accountHost [] "desktop.json"
      = ([Event.stdout "[ user: ghost account ]",
          Event.spawn "/usr/sbin/usermod" ["-s", "/usr/bin/zsh", "-d", "/home/ghost", "ghost"],
          Event.stdout "  OK",
          Event.stdout "[ apt: install vim ]",
          Event.spawn "/usr/bin/apt-get" ["-y", "install", "vim"],
          Event.stdout "  OK"],
         Res.ret (some desktopConf, none)) := by
  have hopen : accountHost.osOpen [] "desktop.json" = Except.ok desktopJson := rfl
  have hdecode : accountHost.jsonDecode desktopJson = Except.ok desktopConf := by
    simp [accountHost, sampleDecode]
  have hloop : runCommands accountHost [] [ghostEntry, vimEntry]
      = ([Event.stdout "[ user: ghost account ]",
          Event.spawn "/usr/sbin/usermod" ["-s", "/usr/bin/zsh", "-d", "/home/ghost", "ghost"],
          Event.stdout "  OK",
          Event.stdout "[ apt: install vim ]",
          Event.spawn "/usr/bin/apt-get" ["-y", "install", "vim"],
          Event.stdout "  OK"], Res.ret none) := by decide
  simp [ParseFile, hopen, hdecode, desktopConf, hloop]

end Dotconf
